import Mathlib

/-!
Verification of the boids flocking core of the submarine simulation.

The C sources are shallowly embedded: GLfloat arithmetic is modelled by
exact real arithmetic, sqrtf by Real.sqrt, the two global boid arrays by
functions out of Fin BOID_COUNT, and the in-place update loops by folds
that write one slot at a time with Function.update.  qsort with the
comparator compare_neighbor_boids is modelled by a stable insertion sort
ordered by that comparator: the C standard leaves the order of
comparator-equal elements unspecified, and keeping the input order is the
canonical deterministic completion consistent with the comparator.
-/

namespace SubmarineBoids

noncomputable section

/-- BOID_COUNT from boids.h. -/
abbrev BOID_COUNT : ℕ := 40

/-- BOID_NEIGHBORHOOD_SIZE from boids.h. -/
abbrev BOID_NEIGHBORHOOD_SIZE : ℕ := 6

/-- BOID_SPEED from boids.h (0.01f). -/
def BOID_SPEED : ℝ := 1 / 100

/-- BOID_TRIGGER_SEPARATE from boid_behavior.h (1.0f). -/
def BOID_TRIGGER_SEPARATE : ℝ := 1

/-- BOID_TRIGGER_ENVIRONMENT from boid_behavior.h (2.0f). -/
def BOID_TRIGGER_ENVIRONMENT : ℝ := 2

/-- BOID_STRENGTH_ENVIRONMENT from boid_behavior.h (0.1f). -/
def BOID_STRENGTH_ENVIRONMENT : ℝ := 1 / 10

/-- BOID_STRENGTH_SEPARATE from boid_behavior.h (0.005f). -/
def BOID_STRENGTH_SEPARATE : ℝ := 1 / 200

/-- BOID_STRENGTH_ALIGNMENT from boid_behavior.h (0.00125f). -/
def BOID_STRENGTH_ALIGNMENT : ℝ := 1 / 800

/-- BOID_STRENGTH_COHESION from boid_behavior.h (0.002f). -/
def BOID_STRENGTH_COHESION : ℝ := 1 / 500

/-- ENVIRONMENT_RADIUS_XZ from environment.h. -/
def ENVIRONMENT_RADIUS_XZ : ℝ := 10

/-- ENVIRONMENT_HEIGHT from environment.h. -/
def ENVIRONMENT_HEIGHT : ℝ := 10

/-- ENVIRONMENT_FLOOR_Y from environment.h. -/
def ENVIRONMENT_FLOOR_Y : ℝ := -1

/-- RAND_MAX of the C library (glibc value). -/
def RAND_MAX : ℕ := 2147483647

/-- vector_3d from geometry.h: three GLfloat components. -/
@[ext]
structure vector_3d where
  x : ℝ
  y : ℝ
  z : ℝ

/-- boid from boids.h: a position and a direction. -/
@[ext]
structure boid where
  position : vector_3d
  direction : vector_3d

/-- One of the two global boid arrays (array_boids_current / array_boids_previous). -/
abbrev Flock := Fin BOID_COUNT → boid

/-- geometry_normalize_vector from geometry.c: divide each component by the
Euclidean length.  There is no guard of any kind in the source: the division
happens unconditionally. -/
def geometry_normalize_vector (v : vector_3d) : vector_3d :=
  let length := Real.sqrt (v.x * v.x + v.y * v.y + v.z * v.z)
  ⟨v.x / length, v.y / length, v.z / length⟩

/-- Euclidean magnitude of a vector (the quantity the spec calls magnitude). -/
def vector_magnitude (v : vector_3d) : ℝ :=
  Real.sqrt (v.x * v.x + v.y * v.y + v.z * v.z)

/-- boid_physics_distance_of_boids from boid_physics.c.  The z delta is taken
in the opposite order from x and y, exactly as in the source. -/
def boid_physics_distance_of_boids (b1 b2 : boid) : ℝ :=
  let delta_x := b2.position.x - b1.position.x
  let delta_y := b2.position.y - b1.position.y
  let delta_z := b1.position.z - b2.position.z
  Real.sqrt (delta_x * delta_x + delta_y * delta_y + delta_z * delta_z)

/-- distance_to_wall from boid_physics.c. -/
def distance_to_wall (subject_boid : boid) : ℝ :=
  let distance_to_origin_xz := Real.sqrt
    (subject_boid.position.x * subject_boid.position.x +
     subject_boid.position.z * subject_boid.position.z)
  ENVIRONMENT_RADIUS_XZ - distance_to_origin_xz

/-- distance_to_floor from boid_physics.c. -/
def distance_to_floor (subject_boid : boid) : ℝ :=
  subject_boid.position.y - ENVIRONMENT_FLOOR_Y

/-- distance_to_ceiling from boid_physics.c. -/
def distance_to_ceiling (subject_boid : boid) : ℝ :=
  ENVIRONMENT_HEIGHT - subject_boid.position.y

/-- boid_physics_min_distance_to_environment from boid_physics.c:
fold of fminf over wall, floor, ceiling distances. -/
def boid_physics_min_distance_to_environment (subject_boid : boid) : ℝ :=
  min (min (distance_to_wall subject_boid) (distance_to_floor subject_boid))
    (distance_to_ceiling subject_boid)

/-- boid_behavior_environment_trigger from boid_behavior.c. -/
def boid_behavior_environment_trigger (subject_boid : boid) : Prop :=
  boid_physics_min_distance_to_environment subject_boid < BOID_TRIGGER_ENVIRONMENT

instance (subject_boid : boid) :
    Decidable (boid_behavior_environment_trigger subject_boid) := by
  unfold boid_behavior_environment_trigger
  infer_instance

/-- The denominator of the inverse-square weight in
boid_physics_target_direction_environment: d * d + 1e-6f. -/
def environment_denominator (d : ℝ) : ℝ := d * d + 1 / 1000000

/-- The per-boundary repulsion strength in
boid_physics_target_direction_environment:
BOID_STRENGTH_ENVIRONMENT / (d * d + 1e-6f). -/
def environment_repulsion_strength (d : ℝ) : ℝ :=
  BOID_STRENGTH_ENVIRONMENT / environment_denominator d

/-- The denominator of the inverse-square weight in handle_neighbors_separate:
distance * distance + 0.000001f. -/
def separate_denominator (d : ℝ) : ℝ := d * d + 1 / 1000000

/-- The repulsion strength in handle_neighbors_separate:
1.0f / (distance * distance + 0.000001f) * BOID_STRENGTH_SEPARATE. -/
def separate_repulsion_strength (d : ℝ) : ℝ :=
  1 / separate_denominator d * BOID_STRENGTH_SEPARATE

/-- The denominator of the per-neighbor weight in
boid_physics_target_direction_neighbor_cohesion: dist * dist, with no epsilon
term in the source. -/
def cohesion_denominator (d : ℝ) : ℝ := d * d

/-- The per-neighbor weight in boid_physics_target_direction_neighbor_cohesion:
BOID_STRENGTH_COHESION / (dist * dist). -/
def cohesion_weight (d : ℝ) : ℝ :=
  BOID_STRENGTH_COHESION / cohesion_denominator d

/-- boid_physics_target_direction_environment from boid_physics.c.  The caller
passes the initial accumulator (always the zero vector in the source); the
three boundary terms are added in source order, the current direction is
subtracted, and the result is normalized. -/
def boid_physics_target_direction_environment
    (subject_boid : boid) (target_direction : vector_3d) : vector_3d :=
  let wall_distance := distance_to_wall subject_boid
  let td1 := if wall_distance < BOID_TRIGGER_ENVIRONMENT then
      let repulsion_strength := environment_repulsion_strength wall_distance
      ⟨target_direction.x - subject_boid.position.x * repulsion_strength,
       target_direction.y,
       target_direction.z - subject_boid.position.z * repulsion_strength⟩
    else target_direction
  let floor_distance := distance_to_floor subject_boid
  let td2 := if floor_distance < BOID_TRIGGER_ENVIRONMENT then
      ⟨td1.x, td1.y + environment_repulsion_strength floor_distance, td1.z⟩
    else td1
  let ceiling_distance := distance_to_ceiling subject_boid
  let td3 := if ceiling_distance < BOID_TRIGGER_ENVIRONMENT then
      ⟨td2.x, td2.y - environment_repulsion_strength ceiling_distance, td2.z⟩
    else td2
  geometry_normalize_vector
    ⟨td3.x - subject_boid.direction.x,
     td3.y - subject_boid.direction.y,
     td3.z - subject_boid.direction.z⟩

/-- boid_behavior_handle_environment from boid_behavior.c. -/
def boid_behavior_handle_environment (subject_boid : boid) : boid :=
  let repulsion_direction :=
    boid_physics_target_direction_environment subject_boid ⟨0, 0, 0⟩
  { subject_boid with
    direction := geometry_normalize_vector
      ⟨subject_boid.direction.x + repulsion_direction.x * BOID_STRENGTH_ENVIRONMENT,
       subject_boid.direction.y + repulsion_direction.y * BOID_STRENGTH_ENVIRONMENT,
       subject_boid.direction.z + repulsion_direction.z * BOID_STRENGTH_ENVIRONMENT⟩ }

/-- boid_neighbor from boid_behavior.h: a distance and an index into the
previous-frame array. -/
@[ext]
structure boid_neighbor where
  distance : ℝ
  index : Fin BOID_COUNT

instance : Inhabited boid_neighbor := ⟨⟨0, 0⟩⟩

/-- compare_neighbor_boids from boid_behavior.c: the qsort comparator.
It compares only the distance fields and returns 0 on ties; it never reads
the index fields. -/
def compare_neighbor_boids (a b : boid_neighbor) : ℤ :=
  if a.distance < b.distance then -1
  else if a.distance > b.distance then 1
  else 0

/-- The ordering induced by the comparator: a may be placed before b. -/
def neighbor_le (a b : boid_neighbor) : Prop :=
  compare_neighbor_boids a b ≤ 0

instance : DecidableRel neighbor_le := fun _ _ => by
  unfold neighbor_le compare_neighbor_boids
  infer_instance

/-- sort_all_neighbors from boid_behavior.c: qsort over the whole record
array with compare_neighbor_boids, modelled as a stable insertion sort
ordered by the comparator. -/
def sort_all_neighbors (all_neighbors : List boid_neighbor) : List boid_neighbor :=
  List.insertionSort neighbor_le all_neighbors

/-- boid_behavior_find_neighbors from boid_behavior.c: build one record per
slot of the previous array (distance from the subject, index = slot), sort,
and keep the BOID_NEIGHBORHOOD_SIZE records after position 0. -/
def boid_behavior_find_neighbors (subject_boid : boid) (prev : Flock) :
    List boid_neighbor :=
  let all_possible_neighbors := List.ofFn fun i : Fin BOID_COUNT =>
    (⟨boid_physics_distance_of_boids subject_boid (prev i), i⟩ : boid_neighbor)
  ((sort_all_neighbors all_possible_neighbors).drop 1).take BOID_NEIGHBORHOOD_SIZE

/-- boid_physics_target_direction_neighbor_alignment from boid_physics.c. -/
def boid_physics_target_direction_neighbor_alignment
    (prev : Flock) (subject_boid : boid) (neighbors : List boid_neighbor) :
    vector_3d :=
  let sum_x := (neighbors.map fun n => (prev n.index).direction.x).sum
  let sum_y := (neighbors.map fun n => (prev n.index).direction.y).sum
  let sum_z := (neighbors.map fun n => (prev n.index).direction.z).sum
  let avg_x := sum_x / (BOID_NEIGHBORHOOD_SIZE : ℝ)
  let avg_y := sum_y / (BOID_NEIGHBORHOOD_SIZE : ℝ)
  let avg_z := sum_z / (BOID_NEIGHBORHOOD_SIZE : ℝ)
  geometry_normalize_vector
    ⟨avg_x - subject_boid.direction.x,
     avg_y - subject_boid.direction.y,
     avg_z - subject_boid.direction.z⟩

/-- handle_neighbors_align from boid_behavior.c. -/
def handle_neighbors_align
    (prev : Flock) (subject_boid : boid) (neighbors : List boid_neighbor) : boid :=
  let alignment_direction :=
    boid_physics_target_direction_neighbor_alignment prev subject_boid neighbors
  { subject_boid with
    direction := geometry_normalize_vector
      ⟨subject_boid.direction.x + alignment_direction.x * BOID_STRENGTH_ALIGNMENT,
       subject_boid.direction.y + alignment_direction.y * BOID_STRENGTH_ALIGNMENT,
       subject_boid.direction.z + alignment_direction.z * BOID_STRENGTH_ALIGNMENT⟩ }

/-- handle_neighbors_separate from boid_behavior.c: only the closest neighbor
is considered, and only when its recomputed distance is below
BOID_TRIGGER_SEPARATE. -/
def handle_neighbors_separate
    (prev : Flock) (subject_boid : boid) (closest_neighbor : boid_neighbor) : boid :=
  let neighbor := prev closest_neighbor.index
  let distance := boid_physics_distance_of_boids subject_boid neighbor
  if distance < BOID_TRIGGER_SEPARATE then
    let separation_vector := geometry_normalize_vector
      ⟨subject_boid.position.x - neighbor.position.x,
       subject_boid.position.y - neighbor.position.y,
       subject_boid.position.z - neighbor.position.z⟩
    let repulsion_strength := separate_repulsion_strength distance
    { subject_boid with
      direction := geometry_normalize_vector
        ⟨subject_boid.direction.x + separation_vector.x * repulsion_strength,
         subject_boid.direction.y + separation_vector.y * repulsion_strength,
         subject_boid.direction.z + separation_vector.z * repulsion_strength⟩ }
  else subject_boid

/-- boid_physics_target_direction_neighbor_cohesion from boid_physics.c:
positions weighted by BOID_STRENGTH_COHESION / (dist * dist), accumulated in
source loop order as (sum_x, sum_y, sum_z, total_weight). -/
def boid_physics_target_direction_neighbor_cohesion
    (prev : Flock) (subject_boid : boid) (neighbors : List boid_neighbor) :
    vector_3d :=
  let acc := neighbors.foldl
    (fun (a : ℝ × ℝ × ℝ × ℝ) n =>
      let neighbor := prev n.index
      let dist := boid_physics_distance_of_boids subject_boid neighbor
      let weight := cohesion_weight dist
      (a.1 + neighbor.position.x * weight,
       a.2.1 + neighbor.position.y * weight,
       a.2.2.1 + neighbor.position.z * weight,
       a.2.2.2 + weight))
    (0, 0, 0, 0)
  let avg_x := acc.1 / acc.2.2.2
  let avg_y := acc.2.1 / acc.2.2.2
  let avg_z := acc.2.2.1 / acc.2.2.2
  geometry_normalize_vector
    ⟨avg_x - subject_boid.position.x,
     avg_y - subject_boid.position.y,
     avg_z - subject_boid.position.z⟩

/-- handle_neighbors_cohere from boid_behavior.c. -/
def handle_neighbors_cohere
    (prev : Flock) (subject_boid : boid) (neighbors : List boid_neighbor) : boid :=
  let cohesion_direction :=
    boid_physics_target_direction_neighbor_cohesion prev subject_boid neighbors
  { subject_boid with
    direction := geometry_normalize_vector
      ⟨subject_boid.direction.x + cohesion_direction.x * BOID_STRENGTH_COHESION,
       subject_boid.direction.y + cohesion_direction.y * BOID_STRENGTH_COHESION,
       subject_boid.direction.z + cohesion_direction.z * BOID_STRENGTH_COHESION⟩ }

/-- boid_behavior_handle_neighbors from boid_behavior.c: find the neighbors
once, then align, separate (against record 0), cohere. -/
def boid_behavior_handle_neighbors (prev : Flock) (subject_boid : boid) : boid :=
  let neighbors := boid_behavior_find_neighbors subject_boid prev
  let b1 := handle_neighbors_align prev subject_boid neighbors
  let b2 := handle_neighbors_separate prev b1 neighbors.headI
  handle_neighbors_cohere prev b2 neighbors

/-- boid_physics_update_position from boid_physics.c. -/
def boid_physics_update_position (subject_boid : boid) : boid :=
  { subject_boid with
    position :=
      ⟨subject_boid.position.x + subject_boid.direction.x * BOID_SPEED,
       subject_boid.position.y + subject_boid.direction.y * BOID_SPEED,
       subject_boid.position.z + subject_boid.direction.z * BOID_SPEED⟩ }

/-- The body of the loop in update_boids_current (boids.c): branch on the
environment trigger, then integrate the position. -/
def update_boid (prev : Flock) (subject_boid : boid) : boid :=
  let b1 := if boid_behavior_environment_trigger subject_boid then
      boid_behavior_handle_environment subject_boid
    else
      boid_behavior_handle_neighbors prev subject_boid
  boid_physics_update_position b1

/-- The pair of global arrays owned by boids.c. -/
@[ext]
structure SimState where
  array_boids_current : Flock
  array_boids_previous : Flock

/-- update_boids_current from boids.c: the in-place loop over slot order,
each iteration rewriting one slot of the current array from the previous
array and that slot's own value. -/
def update_boids_current (s : SimState) : SimState :=
  { s with
    array_boids_current :=
      (List.finRange BOID_COUNT).foldl
        (fun c i => Function.update c i (update_boid s.array_boids_previous (c i)))
        s.array_boids_current }

/-- update_boids_previous from boids.c: the loop copying every slot of the
current array into the previous array. -/
def update_boids_previous (s : SimState) : SimState :=
  { s with
    array_boids_previous :=
      (List.finRange BOID_COUNT).foldl
        (fun p i => Function.update p i (s.array_boids_current i))
        s.array_boids_previous }

/-- boids_update from boids.c. -/
def boids_update (s : SimState) : SimState :=
  update_boids_previous (update_boids_current s)

/-- The raw (pre-normalization) direction assigned by boids_initialize in
boids.c: three consecutive rand() draws divided by RAND_MAX.  The stream r
models successive rand() results; boid i consumes calls 6i .. 6i+5 in source
order (position x, position y, position z, then the three direction
components). -/
def boid_direction_raw (r : ℕ → ℕ) (i : Fin BOID_COUNT) : vector_3d :=
  ⟨(r (6 * (i : ℕ) + 3) : ℝ) / (RAND_MAX : ℝ),
   (r (6 * (i : ℕ) + 4) : ℝ) / (RAND_MAX : ℝ),
   (r (6 * (i : ℕ) + 5) : ℝ) / (RAND_MAX : ℝ)⟩

/-- boids_initialize from boids.c, as a function of the rand() stream:
positions X,Z = rand()/RAND_MAX * 8 - 4, Y = rand() % 8 + 1, and the raw
direction normalized. -/
def boids_init (r : ℕ → ℕ) : Flock := fun i =>
  ⟨⟨(r (6 * (i : ℕ)) : ℝ) / (RAND_MAX : ℝ) * 8 - 4,
    ((r (6 * (i : ℕ) + 1) % 8 : ℕ) : ℝ) + 1,
    (r (6 * (i : ℕ) + 2) : ℝ) / (RAND_MAX : ℝ) * 8 - 4⟩,
   geometry_normalize_vector (boid_direction_raw r i)⟩

/-- The agent of the C7 scenario: the exact center of the enclosure (origin,
Y = 0) with direction (0,0,1). -/
def center_boid : boid := ⟨⟨0, 0, 0⟩, ⟨0, 0, 1⟩⟩

/-- A boid on the vertical axis at height 1/2, heading straight up with
vertical component t: it is within floor-trigger range (floor distance 3/2)
and outside wall range (10) and ceiling range (19/2). -/
def vertical_boid (t : ℝ) : boid := ⟨⟨0, 1 / 2, 0⟩, ⟨0, t, 0⟩⟩

/-- A state whose every slot holds vertical_boid t. -/
def vertical_state (t : ℝ) : SimState :=
  ⟨fun _ => vertical_boid t, fun _ => vertical_boid t⟩

/-- The x coordinate of slot k in the C4 counterexample flock. -/
def xval_c4 (k : ℕ) : ℝ := if k ≤ 1 then 0 else (k : ℝ) - 1

/-- The C4 counterexample flock: boids 0 and 1 occupy the exact same
position, the remaining boids sit strictly farther out along the x axis. -/
def prev_c4 : Flock := fun i => ⟨⟨xval_c4 (i : ℕ), 0, 0⟩, ⟨0, 0, 1⟩⟩

/-- The C4 witness flock: positions pairwise distinct along the x axis. -/
def prev_w4 : Flock := fun i => ⟨⟨((i : ℕ) : ℝ), 0, 0⟩, ⟨0, 0, 1⟩⟩

/-- The two-record array of the C3 counterexample: equal distances, with the
record carrying the larger index placed first. -/
def pair_c3 : List boid_neighbor := [⟨1, 5⟩, ⟨1, 2⟩]

end

/-! ## Helper lemmas -/

theorem sqrt_eval {a c : ℝ} (hc : 0 ≤ c) (h : c * c = a) : Real.sqrt a = c := by
  rw [← h]
  exact Real.sqrt_mul_self hc

theorem geometry_normalize_vector_eval (x y z L : ℝ)
    (hL : Real.sqrt (x * x + y * y + z * z) = L) :
    geometry_normalize_vector ⟨x, y, z⟩ = ⟨x / L, y / L, z / L⟩ := by
  simp only [geometry_normalize_vector]
  rw [hL]

theorem geometry_normalize_vector_zero :
    geometry_normalize_vector ⟨0, 0, 0⟩ = ⟨0, 0, 0⟩ := by
  simp only [geometry_normalize_vector]
  norm_num

theorem sum_squares_pos_of_ne_zero (v : vector_3d) (hv : v ≠ ⟨0, 0, 0⟩) :
    0 < v.x * v.x + v.y * v.y + v.z * v.z := by
  rcases v with ⟨x, y, z⟩
  have hne : x ≠ 0 ∨ y ≠ 0 ∨ z ≠ 0 := by
    by_contra hcon
    push_neg at hcon
    exact hv (by simp only [hcon.1, hcon.2.1, hcon.2.2])
  have hx := mul_self_nonneg x
  have hy := mul_self_nonneg y
  have hz := mul_self_nonneg z
  rcases hne with h | h | h
  · have := mul_self_pos.mpr h
    linarith
  · have := mul_self_pos.mpr h
    linarith
  · have := mul_self_pos.mpr h
    linarith

theorem magnitude_normalize_eq_one (v : vector_3d) (hv : v ≠ ⟨0, 0, 0⟩) :
    vector_magnitude (geometry_normalize_vector v) = 1 := by
  have hs := sum_squares_pos_of_ne_zero v hv
  set s := v.x * v.x + v.y * v.y + v.z * v.z with hs_def
  have hLpos : 0 < Real.sqrt s := Real.sqrt_pos.mpr hs
  have hLL : Real.sqrt s * Real.sqrt s = s := Real.mul_self_sqrt (le_of_lt hs)
  simp only [geometry_normalize_vector, vector_magnitude, ← hs_def]
  have h1 : v.x / Real.sqrt s * (v.x / Real.sqrt s) +
      v.y / Real.sqrt s * (v.y / Real.sqrt s) +
      v.z / Real.sqrt s * (v.z / Real.sqrt s) =
      s / (Real.sqrt s * Real.sqrt s) := by
    rw [hs_def]
    ring
  rw [h1, hLL, div_self (ne_of_gt hs), Real.sqrt_one]

theorem magnitude_normalize_of_result_ne_zero (v : vector_3d)
    (h : geometry_normalize_vector v ≠ ⟨0, 0, 0⟩) :
    vector_magnitude (geometry_normalize_vector v) = 1 := by
  by_cases hv : v = ⟨0, 0, 0⟩
  · rw [hv] at h
    exact absurd geometry_normalize_vector_zero h
  · exact magnitude_normalize_eq_one v hv

theorem foldl_update_apply_of_not_mem {n : ℕ} {α : Type}
    (h : (Fin n → α) → Fin n → α) :
    ∀ (l : List (Fin n)) (c : Fin n → α) (j : Fin n), j ∉ l →
      (l.foldl (fun acc i => Function.update acc i (h acc i)) c) j = c j := by
  intro l
  induction l with
  | nil => intro c j _; rfl
  | cons i l ih =>
    intro c j hj
    rw [List.mem_cons] at hj
    push_neg at hj
    simp only [List.foldl_cons]
    rw [ih _ _ hj.2, Function.update_noteq hj.1]

theorem foldl_update_apply_of_nodup {n : ℕ} {α : Type} (g : α → α) :
    ∀ (l : List (Fin n)) (c : Fin n → α) (j : Fin n), l.Nodup → j ∈ l →
      (l.foldl (fun acc i => Function.update acc i (g (acc i))) c) j = g (c j) := by
  intro l
  induction l with
  | nil => intro c j _ hj; cases hj
  | cons i l ih =>
    intro c j hnd hj
    simp only [List.foldl_cons]
    rcases List.mem_cons.mp hj with hji | hjl
    · subst hji
      have hnotin : j ∉ l := (List.nodup_cons.mp hnd).1
      rw [foldl_update_apply_of_not_mem (fun acc i => g (acc i)) l _ j hnotin,
        Function.update_same]
    · have hne : j ≠ i := by
        rintro rfl
        exact (List.nodup_cons.mp hnd).1 hjl
      rw [ih _ _ (List.nodup_cons.mp hnd).2 hjl, Function.update_noteq hne]

theorem foldl_copy_apply {n : ℕ} {α : Type} (src : Fin n → α) :
    ∀ (l : List (Fin n)) (p : Fin n → α) (j : Fin n), j ∈ l →
      (l.foldl (fun acc i => Function.update acc i (src i)) p) j = src j := by
  intro l
  induction l with
  | nil => intro p j hj; cases hj
  | cons i l ih =>
    intro p j hj
    simp only [List.foldl_cons]
    by_cases hjl : j ∈ l
    · exact ih _ _ hjl
    · have hji : j = i := by
        rcases List.mem_cons.mp hj with h | h
        · exact h
        · exact absurd h hjl
      subst hji
      rw [foldl_update_apply_of_not_mem (fun _ i => src i) l _ j hjl,
        Function.update_same]

theorem update_boids_current_apply (s : SimState) (i : Fin BOID_COUNT) :
    (update_boids_current s).array_boids_current i =
      update_boid s.array_boids_previous (s.array_boids_current i) :=
  foldl_update_apply_of_nodup (update_boid s.array_boids_previous) _ _ i
    (List.nodup_finRange BOID_COUNT) (List.mem_finRange i)

theorem update_boids_previous_apply (s : SimState) (i : Fin BOID_COUNT) :
    (update_boids_previous s).array_boids_previous i = s.array_boids_current i :=
  foldl_copy_apply s.array_boids_current _ _ i (List.mem_finRange i)

/-! ## Claim theorems -/

/-- C8: the pairwise distance function is symmetric: for every pair of boids,
boid_physics_distance_of_boids a b equals boid_physics_distance_of_boids b a
(the reversed z delta is squared, so it does not break symmetry). -/
theorem C8_distance_symmetric (b1 b2 : boid) :
    boid_physics_distance_of_boids b1 b2 = boid_physics_distance_of_boids b2 b1 := by
  simp only [boid_physics_distance_of_boids]
  ring_nf

/-- C9: after update_boids_previous, the previous buffer equals
element-for-element the value the current buffer had before the call, and the
current buffer is left unchanged by the publish. -/
theorem C9_publish_round_trip (s : SimState) :
    (update_boids_previous s).array_boids_previous = s.array_boids_current ∧
    (update_boids_previous s).array_boids_current = s.array_boids_current :=
  ⟨funext fun i => update_boids_previous_apply s i, rfl⟩

/-- C5 counterexample: the cohesion weight does not divide by the squared
distance plus an epsilon: at distance exactly 0 its denominator is 0, and the
weight differs from the epsilon-guarded value the claim asserts. -/
theorem C5_counterexample :
    cohesion_denominator 0 = 0 ∧
    cohesion_weight 0 ≠ BOID_STRENGTH_COHESION / (0 * 0 + 1 / 1000000) := by
  constructor
  · simp [cohesion_denominator]
  · simp only [cohesion_weight, cohesion_denominator, BOID_STRENGTH_COHESION]
    norm_num

/-- C5 amended: the separation and environment-repulsion weights divide by
the squared distance plus 1e-6, a denominator that is strictly positive for
every distance (including zero), but the cohesion weight divides by the bare
squared distance, whose denominator vanishes exactly at distance zero. -/
theorem C5_guarded_denominators (d : ℝ) :
    0 < separate_denominator d ∧ 0 < environment_denominator d ∧
    (cohesion_denominator d = 0 ↔ d = 0) := by
  refine ⟨?_, ?_, ?_⟩
  · simp only [separate_denominator]
    nlinarith [mul_self_nonneg d]
  · simp only [environment_denominator]
    nlinarith [mul_self_nonneg d]
  · simp only [cohesion_denominator]
    exact mul_self_eq_zero

/-- C6 counterexample: geometry_normalize_vector does not leave small-magnitude
vectors unchanged: the vector (0, 0, 1e-6), of magnitude 1e-6 (far below any
plausible epsilon threshold), is rescaled to (0, 0, 1). -/
theorem C6_counterexample :
    vector_magnitude ⟨0, 0, 1 / 1000000⟩ < 1 / 1000 ∧
    geometry_normalize_vector ⟨0, 0, 1 / 1000000⟩ ≠ ⟨0, 0, 1 / 1000000⟩ := by
  have h : Real.sqrt ((0 : ℝ) * 0 + 0 * 0 + 1 / 1000000 * (1 / 1000000)) =
      1 / 1000000 := sqrt_eval (by norm_num) (by norm_num)
  constructor
  · simp only [vector_magnitude]
    rw [h]
    norm_num
  · rw [geometry_normalize_vector_eval 0 0 (1 / 1000000) (1 / 1000000) h]
    simp only [ne_eq, vector_3d.mk.injEq, not_and]
    intro _ _
    norm_num

/-- C6 amended: geometry_normalize_vector has no epsilon-magnitude guard at
all: every nonzero input vector, however small its magnitude, is rescaled to
magnitude exactly 1 (and the zero vector makes the source divide by zero). -/
theorem C6_no_guard_rescales (v : vector_3d) (hv : v ≠ ⟨0, 0, 0⟩) :
    vector_magnitude (geometry_normalize_vector v) = 1 :=
  magnitude_normalize_eq_one v hv

/-- C6 witness: the amended theorem instantiated at the concrete tiny vector
(0, 0, 1e-6). -/
theorem C6_witness :
    (⟨0, 0, 1 / 1000000⟩ : vector_3d) ≠ ⟨0, 0, 0⟩ ∧
    vector_magnitude (geometry_normalize_vector ⟨0, 0, 1 / 1000000⟩) = 1 := by
  have hne : (⟨0, 0, 1 / 1000000⟩ : vector_3d) ≠ ⟨0, 0, 0⟩ := by
    intro hcon
    rw [vector_3d.mk.injEq] at hcon
    norm_num at hcon
  exact ⟨hne, C6_no_guard_rescales ⟨0, 0, 1 / 1000000⟩ hne⟩

theorem min_distance_center :
    boid_physics_min_distance_to_environment center_boid = 1 := by
  simp only [boid_physics_min_distance_to_environment, distance_to_wall,
    distance_to_floor, distance_to_ceiling, center_boid, ENVIRONMENT_RADIUS_XZ,
    ENVIRONMENT_HEIGHT, ENVIRONMENT_FLOOR_Y]
  norm_num [min_def]

/-- C7 counterexample: for the single agent at the exact center of the
enclosure, boid_physics_min_distance_to_environment does not return
ENVIRONMENT_RADIUS_XZ, and boid_behavior_environment_trigger is not false. -/
theorem C7_counterexample :
    ¬ (boid_physics_min_distance_to_environment center_boid =
        ENVIRONMENT_RADIUS_XZ ∧
       ¬ boid_behavior_environment_trigger center_boid) := by
  rintro ⟨heq, -⟩
  rw [min_distance_center] at heq
  simp only [ENVIRONMENT_RADIUS_XZ] at heq
  norm_num at heq

/-- C7 amended: at the exact center (origin) the minimum boundary distance is
1 — the distance to the floor plane at Y = -1 — not the wall radius 10, and
the environment trigger is therefore true (1 < BOID_TRIGGER_ENVIRONMENT = 2),
while the wall distance alone is indeed ENVIRONMENT_RADIUS_XZ. -/
theorem C7_center_amended :
    boid_physics_min_distance_to_environment center_boid = 1 ∧
    distance_to_floor center_boid = 1 ∧
    distance_to_wall center_boid = ENVIRONMENT_RADIUS_XZ ∧
    boid_behavior_environment_trigger center_boid := by
  refine ⟨min_distance_center, ?_, ?_, ?_⟩
  · simp only [distance_to_floor, center_boid, ENVIRONMENT_FLOOR_Y]
    norm_num
  · simp only [distance_to_wall, center_boid]
    norm_num
  · simp only [boid_behavior_environment_trigger, BOID_TRIGGER_ENVIRONMENT,
      min_distance_center]
    norm_num

/-- C2: the per-agent update is a deterministic function of the previous
buffer and the agent's own slot of the current buffer: the updated slot i
equals update_boid applied to those two values alone, so two states agreeing
on the previous buffer and on slot i (but possibly differing at every other
slot j of the current buffer) produce the same result for agent i. -/
theorem C2_per_agent_deterministic (s t : SimState) (i : Fin BOID_COUNT)
    (hprev : s.array_boids_previous = t.array_boids_previous)
    (hslot : s.array_boids_current i = t.array_boids_current i) :
    (update_boids_current s).array_boids_current i =
      update_boid s.array_boids_previous (s.array_boids_current i) ∧
    (update_boids_current s).array_boids_current i =
      (update_boids_current t).array_boids_current i := by
  refine ⟨update_boids_current_apply s i, ?_⟩
  rw [update_boids_current_apply s i, update_boids_current_apply t i, hprev, hslot]

/-- C2 witness: the theorem instantiated at a concrete pair of states that
agree on the previous buffer and on slot 0. -/
theorem C2_witness :
    (update_boids_current (vertical_state (1 / 5))).array_boids_current 0 =
      update_boid (vertical_state (1 / 5)).array_boids_previous
        ((vertical_state (1 / 5)).array_boids_current 0) ∧
    (update_boids_current (vertical_state (1 / 5))).array_boids_current 0 =
      (update_boids_current (vertical_state (1 / 5))).array_boids_current 0 :=
  C2_per_agent_deterministic (vertical_state (1 / 5)) (vertical_state (1 / 5)) 0
    rfl rfl

/-- C10: every component the initializer feeds into the direction vector is
rand()/RAND_MAX, which lies in [0,1]; consequently every initial normalized
direction lies in the closed non-negative octant. -/
theorem C10_octant (r : ℕ → ℕ) (h : ∀ n, r n ≤ RAND_MAX) (i : Fin BOID_COUNT) :
    (0 ≤ (boid_direction_raw r i).x ∧ (boid_direction_raw r i).x ≤ 1) ∧
    (0 ≤ (boid_direction_raw r i).y ∧ (boid_direction_raw r i).y ≤ 1) ∧
    (0 ≤ (boid_direction_raw r i).z ∧ (boid_direction_raw r i).z ≤ 1) ∧
    0 ≤ ((boids_init r i).direction).x ∧
    0 ≤ ((boids_init r i).direction).y ∧
    0 ≤ ((boids_init r i).direction).z := by
  have hRM : (0 : ℝ) < (RAND_MAX : ℝ) := by
    simp only [RAND_MAX]
    norm_num
  have hcomp : ∀ n : ℕ, 0 ≤ (r n : ℝ) / (RAND_MAX : ℝ) ∧
      (r n : ℝ) / (RAND_MAX : ℝ) ≤ 1 := by
    intro n
    constructor
    · exact div_nonneg (Nat.cast_nonneg _) (le_of_lt hRM)
    · rw [div_le_one hRM]
      exact_mod_cast h n
  have hx := hcomp (6 * (i : ℕ) + 3)
  have hy := hcomp (6 * (i : ℕ) + 4)
  have hz := hcomp (6 * (i : ℕ) + 5)
  have hsqrt : 0 ≤ Real.sqrt
      ((boid_direction_raw r i).x * (boid_direction_raw r i).x +
       (boid_direction_raw r i).y * (boid_direction_raw r i).y +
       (boid_direction_raw r i).z * (boid_direction_raw r i).z) :=
    Real.sqrt_nonneg _
  refine ⟨⟨hx.1, hx.2⟩, ⟨hy.1, hy.2⟩, ⟨hz.1, hz.2⟩, ?_, ?_, ?_⟩
  · exact div_nonneg hx.1 hsqrt
  · exact div_nonneg hy.1 hsqrt
  · exact div_nonneg hz.1 hsqrt

theorem neighbor_le_iff (a b : boid_neighbor) :
    neighbor_le a b ↔ a.distance ≤ b.distance := by
  simp only [neighbor_le, compare_neighbor_boids]
  split_ifs with h1 h2
  · constructor
    · intro _
      exact le_of_lt h1
    · intro _
      norm_num
  · constructor
    · intro hcon
      norm_num at hcon
    · intro hcon
      exact absurd hcon (not_le.mpr h2)
  · constructor
    · intro _
      exact not_lt.mp h2
    · intro _
      norm_num

instance : IsTotal boid_neighbor neighbor_le :=
  ⟨fun a b => by
    rw [neighbor_le_iff, neighbor_le_iff]
    exact le_total a.distance b.distance⟩

instance : IsTrans boid_neighbor neighbor_le :=
  ⟨fun a b c hab hbc => by
    rw [neighbor_le_iff] at hab hbc ⊢
    exact le_trans hab hbc⟩

/-- C3 amended: the comparator compare_neighbor_boids orders records by
distance alone and returns 0 whenever the distances are equal, regardless of
the index fields, so it provides no index tie-break; the sort orders the
records nondecreasing with respect to the comparator and permutes the input
(in the model, comparator-equal records keep their input order, which
coincides with index order only because find_neighbors builds the records
with index equal to array position). -/
theorem C3_comparator_no_tie_break :
    (∀ a b : boid_neighbor,
      compare_neighbor_boids a b = 0 ↔ a.distance = b.distance) ∧
    (∀ l : List boid_neighbor,
      List.Sorted neighbor_le (sort_all_neighbors l) ∧
      List.Perm (sort_all_neighbors l) l) := by
  constructor
  · intro a b
    simp only [compare_neighbor_boids]
    split_ifs with h1 h2
    · constructor
      · intro hcon
        norm_num at hcon
      · intro heq
        exact absurd heq (ne_of_lt h1)
    · constructor
      · intro hcon
        norm_num at hcon
      · intro heq
        exact absurd heq (ne_of_gt h2)
    · exact ⟨fun _ => le_antisymm (not_lt.mp h2) (not_lt.mp h1), fun _ => rfl⟩
  · intro l
    exact ⟨List.sorted_insertionSort neighbor_le l,
      List.perm_insertionSort neighbor_le l⟩

theorem sort_pair_c3 : sort_all_neighbors pair_c3 = pair_c3 := by
  apply List.Sorted.insertionSort_eq
  have h1 : neighbor_le ⟨1, 5⟩ ⟨1, 2⟩ := (neighbor_le_iff _ _).mpr le_rfl
  simp [pair_c3, List.sorted_cons, h1]

/-- C3 counterexample: on the input array [(distance 1, index 5),
(distance 1, index 2)] the sorted output keeps the record with the larger
index first even though the distances are equal, so the record with the
smaller original index does not precede the other. -/
theorem C3_counterexample :
    (sort_all_neighbors pair_c3).headI.distance =
      (sort_all_neighbors pair_c3).tail.headI.distance ∧
    ¬ (sort_all_neighbors pair_c3).headI.index <
        (sort_all_neighbors pair_c3).tail.headI.index := by
  rw [sort_pair_c3]
  refine ⟨rfl, ?_⟩
  decide

theorem distance_self (b : boid) : boid_physics_distance_of_boids b b = 0 := by
  simp only [boid_physics_distance_of_boids, sub_self]
  norm_num

/-- C4 amended: boid_behavior_find_neighbors always yields exactly
BOID_NEIGHBORHOOD_SIZE records — unconditionally, for every flock and
subject agent — and none of them carries the subject's own index provided no
other slot of the previous buffer is at distance exactly 0 from the subject;
with a duplicate position the subject's own record can survive into the
neighbor set. -/
theorem C4_neighbor_exclusion (prev : Flock) (i : Fin BOID_COUNT) :
    (boid_behavior_find_neighbors (prev i) prev).length = BOID_NEIGHBORHOOD_SIZE ∧
    ((∀ j : Fin BOID_COUNT, j ≠ i →
        boid_physics_distance_of_boids (prev i) (prev j) ≠ 0) →
      ∀ n ∈ boid_behavior_find_neighbors (prev i) prev, n.index ≠ i) := by
  have hfind : boid_behavior_find_neighbors (prev i) prev =
      ((sort_all_neighbors (List.ofFn fun j : Fin BOID_COUNT =>
        (⟨boid_physics_distance_of_boids (prev i) (prev j), j⟩ : boid_neighbor))).drop
          1).take BOID_NEIGHBORHOOD_SIZE := rfl
  set f : Fin BOID_COUNT → boid_neighbor := fun j =>
    ⟨boid_physics_distance_of_boids (prev i) (prev j), j⟩ with hf
  set s := sort_all_neighbors (List.ofFn f) with hs
  have hperm : List.Perm s (List.ofFn f) := List.perm_insertionSort _ _
  have hsorted : List.Sorted neighbor_le s := List.sorted_insertionSort _ _
  have hlen : s.length = BOID_COUNT := by
    rw [hperm.length_eq, List.length_ofFn]
  constructor
  · rw [hfind]
    simp only [List.length_take, List.length_drop, hlen, BOID_COUNT]
    decide
  · intro h
    obtain ⟨a, t, hst⟩ : ∃ a t, s = a :: t := by
      cases hcase : s with
      | nil =>
        rw [hcase] at hlen
        simp at hlen
      | cons a t => exact ⟨a, t, rfl⟩
    have hmem_a : a ∈ List.ofFn f := hperm.subset (hst ▸ List.mem_cons_self a t)
    obtain ⟨j, hj⟩ := Set.mem_range.mp ((List.mem_ofFn f a).mp hmem_a)
    have ha : a = f i := by
      by_cases hji : j = i
      · rw [← hj, hji]
      · exfalso
        have hdj : 0 < (f j).distance := by
          have hne := h j hji
          have hnn : 0 ≤ (f j).distance := Real.sqrt_nonneg _
          exact lt_of_le_of_ne hnn (Ne.symm hne)
        have hfi_mem : f i ∈ s := hperm.mem_iff.mpr ((List.mem_ofFn f (f i)).mpr ⟨i, rfl⟩)
        have hfi_ne : f i ≠ a := by
          intro hcon
          have h1 := congrArg boid_neighbor.index hcon
          have h2 := congrArg boid_neighbor.index hj
          have : i = j := by simpa [hf] using h1.trans h2.symm
          exact hji this.symm
        have hfi_t : f i ∈ t := by
          rcases List.mem_cons.mp (hst ▸ hfi_mem) with hcon | hok
          · exact absurd hcon hfi_ne
          · exact hok
        have hrel : neighbor_le a (f i) := by
          have := (List.sorted_cons.mp (hst ▸ hsorted)).1
          exact this _ hfi_t
        rw [neighbor_le_iff] at hrel
        have hdist_i : (f i).distance = 0 := distance_self (prev i)
        rw [hdist_i, ← hj] at hrel
        exact absurd hrel (not_le.mpr hdj)
    have hnodup_idx : (s.map boid_neighbor.index).Nodup := by
      have h1 : (List.ofFn f).map boid_neighbor.index =
          List.ofFn fun j : Fin BOID_COUNT => j := by
        rw [List.map_ofFn]
        rfl
      have h2 : ((List.ofFn f).map boid_neighbor.index).Nodup := by
        rw [h1]
        exact List.nodup_ofFn.mpr fun a b hab => hab
      exact ((hperm.map boid_neighbor.index).nodup_iff).mpr h2
    have hnot_t : ∀ n ∈ t, n.index ≠ i := by
      intro n hn hcon
      rw [hst, ha] at hnodup_idx
      simp only [List.map_cons, List.nodup_cons] at hnodup_idx
      exact hnodup_idx.1 (by
        rw [← hcon]
        exact List.mem_map_of_mem boid_neighbor.index hn)
    intro n hn
    rw [hfind, hst] at hn
    simp only [List.drop_succ_cons, List.drop_zero] at hn
    exact hnot_t n (List.take_subset _ _ hn)

theorem xval_c4_nonneg (k : ℕ) : 0 ≤ xval_c4 k := by
  unfold xval_c4
  split_ifs with h
  · exact le_refl 0
  · have h2 : 2 ≤ k := by omega
    have h3 : (2 : ℝ) ≤ (k : ℝ) := by exact_mod_cast h2
    linarith

theorem xval_c4_mono {k m : ℕ} (h : k ≤ m) : xval_c4 k ≤ xval_c4 m := by
  unfold xval_c4
  by_cases h1 : k ≤ 1
  · by_cases h2 : m ≤ 1
    · rw [if_pos h1, if_pos h2]
    · rw [if_pos h1, if_neg h2]
      have h3 : 2 ≤ m := by omega
      have h4 : (2 : ℝ) ≤ (m : ℝ) := by exact_mod_cast h3
      linarith
  · have h2 : ¬ m ≤ 1 := by omega
    rw [if_neg h1, if_neg h2]
    have h5 : (k : ℝ) ≤ (m : ℝ) := by exact_mod_cast h
    linarith

theorem dist_c4 (k : Fin BOID_COUNT) :
    boid_physics_distance_of_boids (prev_c4 1) (prev_c4 k) = xval_c4 (k : ℕ) := by
  simp only [boid_physics_distance_of_boids, prev_c4]
  have h1 : xval_c4 ((1 : Fin BOID_COUNT) : ℕ) = 0 := by
    rw [show ((1 : Fin BOID_COUNT) : ℕ) = 1 from rfl]
    simp [xval_c4]
  rw [h1]
  have harg : (xval_c4 (k : ℕ) - 0) * (xval_c4 (k : ℕ) - 0) + (0 - 0) * (0 - 0) +
      (0 - 0) * (0 - 0) = xval_c4 (k : ℕ) * xval_c4 (k : ℕ) := by ring
  rw [harg]
  exact Real.sqrt_mul_self (xval_c4_nonneg _)

theorem sorted_all_c4 :
    List.Sorted neighbor_le (List.ofFn fun k : Fin BOID_COUNT =>
      (⟨boid_physics_distance_of_boids (prev_c4 1) (prev_c4 k), k⟩ : boid_neighbor)) := by
  have hmain : ∀ ⦃a b : Fin BOID_COUNT⦄, a < b →
      neighbor_le ⟨boid_physics_distance_of_boids (prev_c4 1) (prev_c4 a), a⟩
        ⟨boid_physics_distance_of_boids (prev_c4 1) (prev_c4 b), b⟩ := by
    intro a b hab
    rw [neighbor_le_iff]
    simp only [dist_c4]
    exact xval_c4_mono (le_of_lt hab)
  exact List.pairwise_ofFn.mpr hmain

/-- C4 counterexample: in a flock where slots 0 and 1 occupy the exact same
position, the neighbor list computed for subject agent 1 (the boid stored in
slot 1) contains a record carrying the subject's own index 1: the sort places
the duplicate record of slot 0 at position 0 and the subject's own record at
position 1, so the subject is not excluded. -/
theorem C4_counterexample :
    ∃ n ∈ boid_behavior_find_neighbors (prev_c4 1) prev_c4, n.index = 1 := by
  have hfind : boid_behavior_find_neighbors (prev_c4 1) prev_c4 =
      ((sort_all_neighbors (List.ofFn fun k : Fin BOID_COUNT =>
        (⟨boid_physics_distance_of_boids (prev_c4 1) (prev_c4 k), k⟩ :
          boid_neighbor))).drop 1).take BOID_NEIGHBORHOOD_SIZE := rfl
  set f : Fin BOID_COUNT → boid_neighbor := fun k =>
    ⟨boid_physics_distance_of_boids (prev_c4 1) (prev_c4 k), k⟩ with hf
  have hsort : sort_all_neighbors (List.ofFn f) = List.ofFn f :=
    List.Sorted.insertionSort_eq sorted_all_c4
  rw [hfind, hsort]
  have hlen_all : (List.ofFn f).length = 40 := by
    simp [List.length_ofFn, BOID_COUNT]
  have h0lt : 0 < (((List.ofFn f).drop 1).take BOID_NEIGHBORHOOD_SIZE).length := by
    simp only [List.length_take, List.length_drop, hlen_all]
    decide
  refine ⟨(((List.ofFn f).drop 1).take BOID_NEIGHBORHOOD_SIZE).get ⟨0, h0lt⟩,
    List.get_mem _ 0 h0lt, ?_⟩
  have hel : (((List.ofFn f).drop 1).take BOID_NEIGHBORHOOD_SIZE).get ⟨0, h0lt⟩ =
      f ⟨1, by decide⟩ := by
    simp [List.get_eq_getElem, List.getElem_take, List.getElem_drop, List.getElem_ofFn]
  rw [hel]
  rfl

/-- C4 witness: the amended theorem instantiated at a flock whose positions
are pairwise distinct along the x axis, subject agent 0; the unconditional
length conjunct and the exclusion conjunct (with its no-zero-distance
premise discharged) are both exercised. -/
theorem C4_witness :
    (∀ j : Fin BOID_COUNT, j ≠ 0 →
      boid_physics_distance_of_boids (prev_w4 0) (prev_w4 j) ≠ 0) ∧
    ((boid_behavior_find_neighbors (prev_w4 0) prev_w4).length =
      BOID_NEIGHBORHOOD_SIZE ∧
     ∀ n ∈ boid_behavior_find_neighbors (prev_w4 0) prev_w4, n.index ≠ 0) := by
  have hne : ∀ j : Fin BOID_COUNT, j ≠ 0 →
      boid_physics_distance_of_boids (prev_w4 0) (prev_w4 j) ≠ 0 := by
    intro j hj
    have hjpos : (0 : ℝ) < ((j : ℕ) : ℝ) := by
      have : (j : ℕ) ≠ 0 := fun hcon => hj (Fin.ext (by simpa using hcon))
      exact_mod_cast Nat.pos_of_ne_zero this
    simp only [boid_physics_distance_of_boids, prev_w4]
    have hcast : ((((0 : Fin BOID_COUNT) : ℕ)) : ℝ) = 0 := by norm_num
    rw [hcast]
    have harg : (((j : ℕ) : ℝ) - 0) * (((j : ℕ) : ℝ) - 0) + (0 - 0) * (0 - 0) +
        (0 - 0) * (0 - 0) = ((j : ℕ) : ℝ) * ((j : ℕ) : ℝ) := by ring
    rw [harg, Real.sqrt_mul_self (le_of_lt hjpos)]
    exact ne_of_gt hjpos
  exact ⟨hne, (C4_neighbor_exclusion prev_w4 0).1,
    (C4_neighbor_exclusion prev_w4 0).2 hne⟩

theorem update_position_direction (b : boid) :
    (boid_physics_update_position b).direction = b.direction := rfl

theorem handle_environment_direction (b : boid) :
    (boid_behavior_handle_environment b).direction =
      geometry_normalize_vector
        ⟨b.direction.x + (boid_physics_target_direction_environment b ⟨0, 0, 0⟩).x *
            BOID_STRENGTH_ENVIRONMENT,
         b.direction.y + (boid_physics_target_direction_environment b ⟨0, 0, 0⟩).y *
            BOID_STRENGTH_ENVIRONMENT,
         b.direction.z + (boid_physics_target_direction_environment b ⟨0, 0, 0⟩).z *
            BOID_STRENGTH_ENVIRONMENT⟩ := rfl

theorem update_boid_direction_normalize (prev : Flock) (b : boid) :
    ∃ w, (update_boid prev b).direction = geometry_normalize_vector w := by
  simp only [update_boid]
  by_cases htrig : boid_behavior_environment_trigger b
  · rw [if_pos htrig]
    exact ⟨_, rfl⟩
  · rw [if_neg htrig]
    exact ⟨_, rfl⟩

theorem update_boid_direction_vertical (prev : Flock) (t : ℝ)
    (ht : 100000 / 2250001 < t) :
    (update_boid prev (vertical_boid t)).direction =
      geometry_normalize_vector ⟨0, t - 1 / 10, 0⟩ := by
  have hsq0 : Real.sqrt ((0 : ℝ) * 0 + 0 * 0) = 0 := by
    rw [show ((0 : ℝ) * 0 + 0 * 0) = 0 by norm_num, Real.sqrt_zero]
  have hwd : distance_to_wall (vertical_boid t) = 10 := by
    simp only [distance_to_wall, vertical_boid, ENVIRONMENT_RADIUS_XZ]
    rw [hsq0]
    norm_num
  have hfd : distance_to_floor (vertical_boid t) = 3 / 2 := by
    simp only [distance_to_floor, vertical_boid, ENVIRONMENT_FLOOR_Y]
    norm_num
  have hcd : distance_to_ceiling (vertical_boid t) = 19 / 2 := by
    simp only [distance_to_ceiling, vertical_boid, ENVIRONMENT_HEIGHT]
    norm_num
  have htrig : boid_behavior_environment_trigger (vertical_boid t) := by
    simp only [boid_behavior_environment_trigger,
      boid_physics_min_distance_to_environment, hwd, hfd, hcd,
      BOID_TRIGGER_ENVIRONMENT]
    norm_num [min_def]
  have hwall : ¬ distance_to_wall (vertical_boid t) < BOID_TRIGGER_ENVIRONMENT := by
    rw [hwd]
    simp only [BOID_TRIGGER_ENVIRONMENT]
    norm_num
  have hfloor : distance_to_floor (vertical_boid t) < BOID_TRIGGER_ENVIRONMENT := by
    rw [hfd]
    simp only [BOID_TRIGGER_ENVIRONMENT]
    norm_num
  have hceil : ¬ distance_to_ceiling (vertical_boid t) < BOID_TRIGGER_ENVIRONMENT := by
    rw [hcd]
    simp only [BOID_TRIGGER_ENVIRONMENT]
    norm_num
  have hq : (0 : ℝ) < t - 100000 / 2250001 := by linarith
  have hes : environment_repulsion_strength (distance_to_floor (vertical_boid t)) =
      100000 / 2250001 := by
    rw [hfd]
    simp only [environment_repulsion_strength, environment_denominator,
      BOID_STRENGTH_ENVIRONMENT]
    norm_num
  have hrd : boid_physics_target_direction_environment (vertical_boid t) ⟨0, 0, 0⟩ =
      ⟨0, -1, 0⟩ := by
    simp only [boid_physics_target_direction_environment]
    rw [if_neg hwall, if_pos hfloor, if_neg hceil, hes]
    dsimp only [vertical_boid]
    rw [show (⟨0 - 0, 0 + 100000 / 2250001 - t, 0 - 0⟩ : vector_3d) =
        ⟨0, 100000 / 2250001 - t, 0⟩ by
      simp only [vector_3d.mk.injEq]
      norm_num]
    have hL : Real.sqrt ((0 : ℝ) * 0 +
        (100000 / 2250001 - t) * (100000 / 2250001 - t) + 0 * 0) =
        t - 100000 / 2250001 := by
      apply sqrt_eval (le_of_lt hq)
      ring
    rw [geometry_normalize_vector_eval _ _ _ _ hL]
    simp only [vector_3d.mk.injEq]
    refine ⟨by rw [zero_div], ?_, by rw [zero_div]⟩
    rw [show (100000 / 2250001 - t : ℝ) = -(t - 100000 / 2250001) by ring, neg_div,
      div_self (ne_of_gt hq)]
  simp only [update_boid]
  rw [if_pos htrig, update_position_direction, handle_environment_direction, hrd]
  congr 1
  dsimp only [vertical_boid]
  simp only [vector_3d.mk.injEq, BOID_STRENGTH_ENVIRONMENT]
  norm_num
  ring

/-- C1 counterexample: the unit-magnitude invariant fails on a flock state
with an exact force cancellation: every boid sits at (0, 1/2, 0) (only the
floor repulsion fires) with direction (0, BOID_STRENGTH_ENVIRONMENT, 0); the
repulsion contribution cancels the direction exactly, the final
renormalization divides zero by zero, and the published direction has
magnitude 0, not 1 within tolerance 1e-4 (in the C source this is a NaN
direction). -/
theorem C1_counterexample :
    ¬ (∀ (s : SimState) (i : Fin BOID_COUNT),
      |vector_magnitude ((boids_update s).array_boids_current i).direction - 1| ≤
        1 / 10000) := by
  intro hcl
  have h := hcl (vertical_state (1 / 10)) 0
  have hdir : ((boids_update (vertical_state (1 / 10))).array_boids_current 0).direction =
      ⟨0, 0, 0⟩ := by
    have hcur : (boids_update (vertical_state (1 / 10))).array_boids_current =
        (update_boids_current (vertical_state (1 / 10))).array_boids_current := rfl
    rw [hcur, update_boids_current_apply]
    rw [show (vertical_state (1 / 10)).array_boids_current 0 =
        vertical_boid (1 / 10) from rfl]
    rw [update_boid_direction_vertical _ _ (by norm_num)]
    rw [show (⟨0, 1 / 10 - 1 / 10, 0⟩ : vector_3d) = ⟨0, 0, 0⟩ by
      simp only [vector_3d.mk.injEq]
      norm_num]
    exact geometry_normalize_vector_zero
  rw [hdir] at h
  simp only [vector_magnitude] at h
  rw [show ((0 : ℝ) * 0 + 0 * 0 + 0 * 0) = 0 by norm_num, Real.sqrt_zero] at h
  norm_num at h

/-- C1 amended: after a full update pass every agent's direction in the
current buffer has magnitude exactly 1 (hence within tolerance 1e-4) provided
the direction produced for that agent is not the zero vector; every behavior
branch ends by renormalizing and position integration never modifies
direction, but an exact cancellation can hand the unguarded normalization a
zero vector, in which case the direction degenerates (NaN in the C source,
the zero vector in this exact-arithmetic model). -/
theorem C1_unit_direction (s : SimState) (i : Fin BOID_COUNT)
    (h : ((boids_update s).array_boids_current i).direction ≠ ⟨0, 0, 0⟩) :
    vector_magnitude ((boids_update s).array_boids_current i).direction = 1 := by
  have hcur : (boids_update s).array_boids_current =
      (update_boids_current s).array_boids_current := rfl
  rw [hcur, update_boids_current_apply] at h ⊢
  obtain ⟨w, hw⟩ := update_boid_direction_normalize s.array_boids_previous
    (s.array_boids_current i)
  rw [hw] at h ⊢
  exact magnitude_normalize_of_result_ne_zero w h

/-- C1 witness: the amended theorem instantiated at a concrete state whose
agent 0 ends the pass with direction (0, 1, 0). -/
theorem C1_witness :
    ((boids_update (vertical_state (1 / 5))).array_boids_current 0).direction ≠
      ⟨0, 0, 0⟩ ∧
    vector_magnitude
      ((boids_update (vertical_state (1 / 5))).array_boids_current 0).direction = 1 := by
  have hdir : ((boids_update (vertical_state (1 / 5))).array_boids_current 0).direction =
      ⟨0, 1, 0⟩ := by
    have hcur : (boids_update (vertical_state (1 / 5))).array_boids_current =
        (update_boids_current (vertical_state (1 / 5))).array_boids_current := rfl
    rw [hcur, update_boids_current_apply]
    rw [show (vertical_state (1 / 5)).array_boids_current 0 =
        vertical_boid (1 / 5) from rfl]
    rw [update_boid_direction_vertical _ _ (by norm_num)]
    have hL : Real.sqrt ((0 : ℝ) * 0 + (1 / 5 - 1 / 10) * (1 / 5 - 1 / 10) + 0 * 0) =
        1 / 10 := sqrt_eval (by norm_num) (by norm_num)
    rw [geometry_normalize_vector_eval _ _ _ _ hL]
    simp only [vector_3d.mk.injEq]
    norm_num
  have hne : ((boids_update (vertical_state (1 / 5))).array_boids_current 0).direction ≠
      ⟨0, 0, 0⟩ := by
    rw [hdir]
    intro hcon
    rw [vector_3d.mk.injEq] at hcon
    norm_num at hcon
  exact ⟨hne, C1_unit_direction (vertical_state (1 / 5)) 0 hne⟩

/-- C10 witness: the theorem instantiated at the constant-zero rand stream
and agent 0. -/
theorem C10_witness :
    (∀ n, (fun _ : ℕ => 0) n ≤ RAND_MAX) ∧
    (0 ≤ (boid_direction_raw (fun _ => 0) 0).x ∧
     (boid_direction_raw (fun _ => 0) 0).x ≤ 1) ∧
    (0 ≤ (boid_direction_raw (fun _ => 0) 0).y ∧
     (boid_direction_raw (fun _ => 0) 0).y ≤ 1) ∧
    (0 ≤ (boid_direction_raw (fun _ => 0) 0).z ∧
     (boid_direction_raw (fun _ => 0) 0).z ≤ 1) ∧
    0 ≤ ((boids_init (fun _ => 0) 0).direction).x ∧
    0 ≤ ((boids_init (fun _ => 0) 0).direction).y ∧
    0 ≤ ((boids_init (fun _ => 0) 0).direction).z :=
  ⟨fun _ => Nat.zero_le _, C10_octant (fun _ => 0) (fun _ => Nat.zero_le _) 0⟩

end SubmarineBoids
